import Mathlib

/-!
Verification of the local cron operations of the clawdbot repository
(`local-ops.ts`): job store data model, schedule evaluation, due-job
selection and the job lifecycle operations, with theorems settling the
specification's claims about them.

The file system, `Date.now()` and `randomUUID()` are modelled by passing
the store value, the current time and the fresh id explicitly into each
operation; loading and saving the store document are the identity on that
value, so the `try/catch` wrappers of the source can only surface the
errors produced by the operation bodies themselves.
-/

set_option synthInstance.maxHeartbeats 1000000
set_option maxHeartbeats 1000000

namespace Clawdbot

/-- Modelled from the spec: `types.ts` is not under `src/`. Schedule is the
tagged variant `at{atMs} | every{intervalMs, anchorMs} | cron{expression,
timezone}` of spec section 3, with timestamps as integer milliseconds. -/
inductive CronSchedule where
  | at_ (atMs : Nat)
  | every (intervalMs : Nat) (anchorMs : Nat)
  | cron (expression : String) (timezone : String)
deriving DecidableEq

/-- Modelled from the spec: the payload tagged variant of spec section 3,
`systemEvent{text}` or `agentTurn{message, model?, thinking?, timeoutSeconds?,
deliver?, channel?, to?, bestEffortDeliver?}`. -/
inductive CronPayload where
  | systemEvent (text : String)
  | agentTurn (message : String) (model : Option String) (thinking : Option String)
      (timeoutSeconds : Option Nat) (deliver : Option Bool) (channel : Option String)
      (to_ : Option String) (bestEffortDeliver : Option Bool)
deriving DecidableEq

/-- Run status recorded by `markJobCompleted` (`"ok" | "error" | "skipped"`). -/
inductive RunStatus where
  | ok
  | error
  | skipped
deriving DecidableEq

/-- Per-job execution state (`state` in `types.ts`, modelled from the spec:
`state{nextRunAtMs?, runningAtMs?, lastRunAtMs?, lastStatus?, lastError?,
lastDurationMs?}`). `none` models an absent (`undefined`) field. -/
structure CronJobState where
  nextRunAtMs : Option Nat := none
  runningAtMs : Option Nat := none
  lastRunAtMs : Option Nat := none
  lastStatus : Option RunStatus := none
  lastError : Option String := none
  lastDurationMs : Option Nat := none
deriving DecidableEq

/-- A stored job (spec section 3). `payload` is an `Option` because the
runtime object may lack the key: `addJob` copies whatever the caller
supplied without validation. `enabled` is a `Bool`; a job object whose
`enabled` key is absent behaves as `false` in every boolean context of the
source, so the absent case is folded into `false`. -/
structure CronJob where
  id : String
  name : String
  description : Option String := none
  enabled : Bool
  schedule : CronSchedule
  payload : Option CronPayload := none
  deleteAfterRun : Bool := false
  sessionTarget : Option String := none
  wakeMode : Option String := none
  agentId : Option String := none
  isolation : Option String := none
  createdAtMs : Nat
  updatedAtMs : Nat
  state : CronJobState
deriving DecidableEq

/-- The persisted document: `{ jobs: [ Job, ... ] }` (spec section 6).
`loadCronStore` and `saveCronStore` (`store.js`, not under `src/`) are
modelled as the identity on this value. -/
structure CronStore where
  jobs : List CronJob
deriving DecidableEq

/-- State fields a caller may supply on create or patch on update; every
field is optional (`none` models an absent key). -/
structure CronStatePatch where
  nextRunAtMs : Option Nat := none
  runningAtMs : Option Nat := none
  lastRunAtMs : Option Nat := none
  lastStatus : Option RunStatus := none
  lastError : Option String := none
  lastDurationMs : Option Nat := none
deriving DecidableEq

/-- Payload patch as accepted by `updateJob`: a discriminator plus optional
sub-fields of that variant. -/
inductive CronPayloadPatch where
  | systemEvent (text : Option String)
  | agentTurn (message : Option String) (model : Option String) (thinking : Option String)
      (timeoutSeconds : Option Nat) (deliver : Option Bool) (channel : Option String)
      (to_ : Option String) (bestEffortDeliver : Option Bool)
deriving DecidableEq

/-- Creation input (`CronJobCreate`). `enabled` is `Option Bool` because the
source distinguishes an absent key (`input.enabled !== false` is then true,
yet the spread leaves the job's `enabled` falsy) from an explicit boolean. -/
structure CronJobCreate where
  name : String
  description : Option String := none
  enabled : Option Bool := none
  schedule : CronSchedule
  payload : Option CronPayload := none
  deleteAfterRun : Bool := false
  sessionTarget : Option String := none
  wakeMode : Option String := none
  agentId : Option String := none
  isolation : Option String := none
  state : CronStatePatch := {}
deriving DecidableEq

/-- Update input (`CronJobPatch`): every field optional. -/
structure CronJobPatch where
  name : Option String := none
  description : Option String := none
  enabled : Option Bool := none
  schedule : Option CronSchedule := none
  sessionTarget : Option String := none
  wakeMode : Option String := none
  agentId : Option String := none
  deleteAfterRun : Option Bool := none
  isolation : Option String := none
  payload : Option CronPayloadPatch := none
  state : Option CronStatePatch := none
deriving DecidableEq

/-- Result type of the local operations
(`{ ok: true; data: T } | { ok: false; error: string }`). -/
inductive LocalCronResult (α : Type) where
  | ok (data : α)
  | error (err : String)
deriving DecidableEq

/-- Extracts the success payload of a result, `none` on error. -/
def okData {α : Type} : LocalCronResult α → Option α
  | .ok a => some a
  | .error _ => none

/-- Modelled from the spec: `computeNextRunAtMs` (`schedule.js`) is not under
`src/`. Spec section 4.1: `at{atMs}` returns `atMs` if still in the future,
else nothing; `every{intervalMs, anchorMs}` returns the smallest
`anchorMs + k*intervalMs` strictly greater than the reference time for
integer `k` at least 0 (nothing when `intervalMs = 0` and the anchor has
passed, since no grid point lies strictly after the reference); the spec
gives no computable semantics for cron expressions, so the model treats a
`cron` schedule as non-schedulable. -/
def computeNextRunAtMs (s : CronSchedule) (referenceTimeMs : Nat) : Option Nat :=
  match s with
  | .at_ atMs => if referenceTimeMs < atMs then some atMs else none
  | .every intervalMs anchorMs =>
    if referenceTimeMs < anchorMs then some anchorMs
    else if intervalMs = 0 then none
    else some (anchorMs + intervalMs * ((referenceTimeMs - anchorMs) / intervalMs + 1))
  | .cron _ _ => none

/-- Helper mirroring `computeNextRun(job, nowMs)` of `local-ops.ts`. -/
def computeNextRun (job : CronJob) (nowMs : Nat) : Option Nat :=
  computeNextRunAtMs job.schedule nowMs

/-- JavaScript truthiness of an optional number: `undefined` and `0` are
falsy, any other number is truthy. -/
def numTruthy : Option Nat → Bool
  | none => false
  | some n => n != 0

/-- Replaces the first element satisfying `p` by `a`, leaving the rest
unchanged; models `findIndex` followed by in-place assignment at that
index. -/
def setFirst {α : Type} (p : α → Bool) (a : α) : List α → List α
  | [] => []
  | b :: l => if p b then a :: l else b :: setFirst p a l

/-- Stable ascending sort by `state.nextRunAtMs ?? 0`, modelling
`jobs.sort((a, b) => (a.state.nextRunAtMs ?? 0) - (b.state.nextRunAtMs ?? 0))`
(JavaScript sort is stable). -/
def sortJobs (l : List CronJob) : List CronJob :=
  List.insertionSort
    (fun a b => a.state.nextRunAtMs.getD 0 ≤ b.state.nextRunAtMs.getD 0) l

/-- `listJobs`: all jobs, or only the enabled ones, sorted by next run time.
The always-successful `ok` wrapper and the store load are modelled away. -/
def listJobs (store : CronStore) (includeDisabled : Bool) : List CronJob :=
  sortJobs (if includeDisabled then store.jobs else store.jobs.filter (fun j => j.enabled))

/-- `getDueJobs`: jobs that should run now. Mirrors the source filter:
disabled jobs are skipped, a truthy `runningAtMs` skips the job, and the
job is due when `nextRunAtMs` is a number with `now >= next`. The
always-successful `ok` wrapper is modelled away. -/
def getDueJobs (store : CronStore) (now : Nat) : List CronJob :=
  store.jobs.filter (fun j =>
    if !j.enabled then false
    else if numTruthy j.state.runningAtMs then false
    else
      match j.state.nextRunAtMs with
      | some next => decide (next ≤ now)
      | none => false)

/-- `addJob`: builds the new job by spreading the input over fresh id and
timestamps; the `state` object is the computed `nextRunAtMs` overridden by
whatever `input.state` supplies. The fresh `randomUUID()` and `Date.now()`
are the explicit `newId` and `now` arguments. No field is validated. -/
def addJob (store : CronStore) (input : CronJobCreate) (newId : String) (now : Nat) :
    CronStore × LocalCronResult CronJob :=
  let computed : Option Nat :=
    if input.enabled ≠ some false then computeNextRunAtMs input.schedule now else none
  let job : CronJob :=
    { id := newId
      name := input.name
      description := input.description
      enabled := input.enabled.getD false
      schedule := input.schedule
      payload := input.payload
      deleteAfterRun := input.deleteAfterRun
      sessionTarget := input.sessionTarget
      wakeMode := input.wakeMode
      agentId := input.agentId
      isolation := input.isolation
      createdAtMs := now
      updatedAtMs := now
      state :=
        { nextRunAtMs := input.state.nextRunAtMs.orElse (fun _ => computed)
          runningAtMs := input.state.runningAtMs
          lastRunAtMs := input.state.lastRunAtMs
          lastStatus := input.state.lastStatus
          lastError := input.state.lastError
          lastDurationMs := input.state.lastDurationMs } }
  ({ jobs := store.jobs ++ [job] }, .ok job)

/-- Variant-aware payload patch on an existing payload, mirroring the
source: same kind keeps unspecified sub-fields from the existing value;
a differing kind rebuilds the payload from the patch alone with defaults. -/
def applyPayloadPatch (pp : CronPayloadPatch) (p : CronPayload) : CronPayload :=
  match pp with
  | .systemEvent t? =>
    .systemEvent (t?.getD (match p with | .systemEvent t => t | _ => ""))
  | .agentTurn m? mo? th? ti? de? ch? to? be? =>
    match p with
    | .agentTurn m mo th ti de ch tv be =>
      .agentTurn (m?.getD m) (mo?.orElse (fun _ => mo)) (th?.orElse (fun _ => th))
        (ti?.orElse (fun _ => ti)) (de?.orElse (fun _ => de)) (ch?.orElse (fun _ => ch))
        (to?.orElse (fun _ => tv)) (be?.orElse (fun _ => be))
    | _ =>
      .agentTurn (m?.getD "") mo? th? ti? de? ch? to? be?

/-- Lifts the payload patch to a possibly-absent existing payload. When the
job has no payload object, the source throws a `TypeError` reading
`job.payload.kind` — except for a `systemEvent` patch that supplies `text`,
where `??` short-circuits before `job.payload.kind` is evaluated. `none`
here models the thrown exception. -/
def applyPayloadPatchEx (pp : CronPayloadPatch) : Option CronPayload → Option CronPayload
  | some p => some (applyPayloadPatch pp p)
  | none =>
    match pp with
    | .systemEvent (some t) => some (.systemEvent t)
    | _ => none

/-- Applies the optional state fields of a patch over the existing state
(`if (patch.state.f !== undefined) job.state.f = patch.state.f`). -/
def applyStatePatch (st : CronJobState) (ps : CronStatePatch) : CronJobState :=
  { nextRunAtMs := ps.nextRunAtMs.orElse (fun _ => st.nextRunAtMs)
    runningAtMs := ps.runningAtMs.orElse (fun _ => st.runningAtMs)
    lastRunAtMs := ps.lastRunAtMs.orElse (fun _ => st.lastRunAtMs)
    lastStatus := ps.lastStatus.orElse (fun _ => st.lastStatus)
    lastError := ps.lastError.orElse (fun _ => st.lastError)
    lastDurationMs := ps.lastDurationMs.orElse (fun _ => st.lastDurationMs) }

/-- Applies the simple field patches of `updateJob` (name through
isolation); each `if (patch.f !== undefined) job.f = patch.f` guard becomes
an override of that field when the patch carries it. -/
def applySimpleFields (job : CronJob) (patch : CronJobPatch) : CronJob :=
  { job with
    name := patch.name.getD job.name
    description := patch.description.orElse (fun _ => job.description)
    enabled := patch.enabled.getD job.enabled
    schedule := patch.schedule.getD job.schedule
    sessionTarget := patch.sessionTarget.orElse (fun _ => job.sessionTarget)
    wakeMode := patch.wakeMode.orElse (fun _ => job.wakeMode)
    agentId := patch.agentId.orElse (fun _ => job.agentId)
    deleteAfterRun := patch.deleteAfterRun.getD job.deleteAfterRun
    isolation := patch.isolation.orElse (fun _ => job.isolation) }

/-- Error message of the modelled `TypeError` thrown when a payload patch
reads `job.payload.kind` on a job without a payload object. -/
def payloadTypeErrorMsg : String :=
  "TypeError: Cannot read properties of undefined (reading 'kind')"

/-- The recompute block closing `updateJob`: recompute `nextRunAtMs` when
the job is enabled and the patch touched `schedule` or `enabled`, clear it
when the job ends up disabled, leave it otherwise. -/
def recompute (patch : CronJobPatch) (now : Nat) (j3 : CronJob) : CronJob :=
  if j3.enabled && (patch.schedule.isSome || patch.enabled.isSome) then
    { j3 with state := { j3.state with nextRunAtMs := computeNextRun j3 now } }
  else if !j3.enabled then
    { j3 with state := { j3.state with nextRunAtMs := none } }
  else j3

/-- The job value produced by `updateJob` once the simple fields and the
payload have been patched: state patch, `updatedAtMs` bump, recompute
block. -/
def updatedJob (patch : CronJobPatch) (now : Nat) (j1 : CronJob) : CronJob :=
  recompute patch now
    { (match patch.state with
       | some ps => { j1 with state := applyStatePatch j1.state ps }
       | none => j1) with updatedAtMs := now }

/-- Tail of `updateJob` after the payload patch: the write-back of the
updated job into its slot followed by the save. -/
def finishUpdate (store : CronStore) (id : String) (patch : CronJobPatch) (now : Nat)
    (j1 : CronJob) : CronStore × LocalCronResult CronJob :=
  ({ jobs := setFirst (fun j => j.id == id) (updatedJob patch now j1) store.jobs },
   .ok (updatedJob patch now j1))

/-- `updateJob`: finds the job, applies the patch field-by-field in source
order (simple fields, payload, state), bumps `updatedAtMs`, recomputes or
clears `nextRunAtMs`, writes the job back and saves. A missing id yields
the not-found error; a payload patch over an absent payload yields the
modelled thrown `TypeError` and leaves the store unsaved. -/
def updateJob (store : CronStore) (id : String) (patch : CronJobPatch) (now : Nat) :
    CronStore × LocalCronResult CronJob :=
  match store.jobs.find? (fun j => j.id == id) with
  | none => (store, .error ("Job not found: " ++ id))
  | some found =>
    let j1 := applySimpleFields found patch
    match patch.payload with
    | none => finishUpdate store id patch now j1
    | some pp =>
      match applyPayloadPatchEx pp j1.payload with
      | none => (store, .error payloadTypeErrorMsg)
      | some p2 => finishUpdate store id patch now { j1 with payload := some p2 }

/-- `removeJob`: filters the job out; `removed` reports whether the
collection shrank (the skipped no-op save has no observable effect in the
pure model). -/
def removeJob (store : CronStore) (id : String) : CronStore × LocalCronResult Bool :=
  let jobs := store.jobs.filter (fun j => j.id != id)
  ({ jobs := jobs }, .ok (decide (jobs.length < store.jobs.length)))

/-- `markJobRunning`: delegates to `updateJob` with a state patch carrying
only `runningAtMs = now`. -/
def markJobRunning (store : CronStore) (id : String) (now : Nat) :
    CronStore × LocalCronResult CronJob :=
  updateJob store id { state := some { runningAtMs := some now } } now

/-- Completion report passed to `markJobCompleted`. -/
structure CronRunResult where
  status : RunStatus
  error : Option String := none
  durationMs : Nat
deriving DecidableEq

/-- One-shot test of `markJobCompleted` (`job.schedule.kind === "at"`). -/
def isOneShot : CronSchedule → Bool
  | .at_ _ => true
  | _ => false

/-- `markJobCompleted`: clears `runningAtMs`, records the run outcome, then
branches: a one-shot (`at`) job completed `ok` is deleted when
`deleteAfterRun` is set and otherwise disabled with `nextRunAtMs` cleared;
any other job that is enabled gets `nextRunAtMs` recomputed at the
completion time. -/
def markJobCompleted (store : CronStore) (id : String) (result : CronRunResult)
    (now : Nat) : CronStore × LocalCronResult CronJob :=
  match store.jobs.find? (fun j => j.id == id) with
  | none => (store, .error ("Job not found: " ++ id))
  | some found =>
    let job := { found with
      state := { found.state with
        runningAtMs := none
        lastRunAtMs := some now
        lastStatus := some result.status
        lastError := result.error
        lastDurationMs := some result.durationMs }
      updatedAtMs := now }
    if isOneShot job.schedule && result.status == .ok then
      if job.deleteAfterRun then
        ({ jobs := store.jobs.filter (fun j => j.id != id) }, .ok job)
      else
        let job := { job with enabled := false
                              state := { job.state with nextRunAtMs := none } }
        ({ jobs := setFirst (fun j => j.id == id) job store.jobs }, .ok job)
    else
      let job :=
        if job.enabled then
          { job with state := { job.state with nextRunAtMs := computeNextRun job now } }
        else job
      ({ jobs := setFirst (fun j => j.id == id) job store.jobs }, .ok job)

/-! Definitions following the spec's words, for comparison with the ones
embedded from the source, and the store invariant under scrutiny. -/

/-- Due-job selection exactly as the spec words it (section 4.3): predicate
`enabled ∧ runningAtMs is unset ∧ nextRunAtMs is set ∧ nextRunAtMs ≤
referenceTimeMs`, result ordered ascending by `nextRunAtMs` with a stable
tie-break by `id`. -/
def dueJobsSpec (store : CronStore) (referenceTimeMs : Nat) : List CronJob :=
  List.insertionSort
    (fun a b => a.state.nextRunAtMs.getD 0 < b.state.nextRunAtMs.getD 0 ∨
      (a.state.nextRunAtMs.getD 0 = b.state.nextRunAtMs.getD 0 ∧ a.id ≤ b.id))
    (store.jobs.filter (fun j =>
      j.enabled && j.state.runningAtMs == none &&
        (match j.state.nextRunAtMs with
         | some next => decide (next ≤ referenceTimeMs)
         | none => false)))

/-- The per-job invariant of spec section 3: `state.nextRunAtMs` is defined
only while `enabled` is true. -/
def jobInvB (j : CronJob) : Bool :=
  j.enabled || j.state.nextRunAtMs == none

/-- The invariant over a whole store. -/
def storeInvB (s : CronStore) : Bool :=
  s.jobs.all jobInvB

/-- Kind discriminator of a payload. -/
inductive PayloadKind where
  | systemEvent
  | agentTurn
deriving DecidableEq

/-- Kind of a payload value. -/
def payloadKind : CronPayload → PayloadKind
  | .systemEvent _ => .systemEvent
  | .agentTurn _ _ _ _ _ _ _ _ => .agentTurn

/-- Kind carried by a payload patch. -/
def patchKind : CronPayloadPatch → PayloadKind
  | .systemEvent _ => .systemEvent
  | .agentTurn _ _ _ _ _ _ _ _ => .agentTurn

/-- The payload built from a patch alone with defaults, carrying over no
sub-field of any previous value — what the spec says a cross-kind payload
patch produces. -/
def payloadOfPatch : CronPayloadPatch → CronPayload
  | .systemEvent t? => .systemEvent (t?.getD "")
  | .agentTurn m? mo? th? ti? de? ch? to? be? =>
    .agentTurn (m?.getD "") mo? th? ti? de? ch? to? be?

/-! Helper lemmas about `setFirst`, `find?` and the sorts. -/

lemma mem_of_mem_setFirst {α : Type} {p : α → Bool} {a x : α} :
    ∀ {l : List α}, x ∈ setFirst p a l → x = a ∨ x ∈ l
  | [], h => by simp [setFirst] at h
  | b :: l, h => by
    by_cases hb : p b
    · simp [setFirst, hb] at h
      rcases h with h | h
      · exact Or.inl h
      · exact Or.inr (List.mem_cons_of_mem b h)
    · simp [setFirst, hb] at h
      rcases h with h | h
      · exact Or.inr (by simp [h])
      · rcases mem_of_mem_setFirst h with h | h
        · exact Or.inl h
        · exact Or.inr (List.mem_cons_of_mem b h)

lemma setFirst_mem_self {α : Type} {p : α → Bool} {a b : α} :
    ∀ {l : List α}, l.find? p = some b → a ∈ setFirst p a l
  | [], h => by simp at h
  | c :: l, h => by
    by_cases hc : p c
    · simp [setFirst, hc]
    · rw [List.find?_cons_of_neg _ hc] at h
      simp [setFirst, hc]
      exact Or.inr (setFirst_mem_self h)

lemma find?_setFirst_self {α : Type} {p : α → Bool} {a b : α} (ha : p a = true) :
    ∀ {l : List α}, l.find? p = some b → (setFirst p a l).find? p = some a
  | [], h => by simp at h
  | c :: l, h => by
    by_cases hc : p c
    · simp [setFirst, hc, List.find?_cons_of_pos _ ha]
    · rw [List.find?_cons_of_neg _ hc] at h
      simp only [setFirst, hc, if_neg, Bool.false_eq_true, not_false_iff, ite_false]
      rw [List.find?_cons_of_neg _ hc]
      exact find?_setFirst_self ha h

/-- In a store whose job ids are duplicate-free, any member of the updated
list that carries the patched id is the replacement itself. -/
lemma setFirst_id_unique {id : String} {a x : CronJob} :
    ∀ {l : List CronJob}, (l.map CronJob.id).Nodup →
      x ∈ setFirst (fun j => j.id == id) a l → x.id = id → a.id = id → x = a
  | [], _, hx, _, _ => by simp [setFirst] at hx
  | c :: l, hnd, hx, hxid, haid => by
    rw [List.map_cons, List.nodup_cons] at hnd
    by_cases hc : c.id = id
    · simp [setFirst, hc] at hx
      rcases hx with hx | hx
      · exact hx
      · exact absurd (hc ▸ hxid ▸ List.mem_map_of_mem CronJob.id hx) hnd.1
    · have hcb : (fun j => j.id == id) c = false := by simp [hc]
      simp only [setFirst, hcb, Bool.false_eq_true, if_false, List.mem_cons] at hx
      rcases hx with hx | hx
      · exact absurd (hx ▸ hxid) hc
      · exact setFirst_id_unique hnd.2 hx hxid haid

lemma mem_sortJobs {x : CronJob} {l : List CronJob} : x ∈ sortJobs l ↔ x ∈ l :=
  (List.perm_insertionSort _ l).mem_iff

/-! Concrete stores and inputs used by counterexamples and witnesses. -/

/-- An enabled recurring test job with a given id and next-run time. -/
def testJob (i : String) (next : Option Nat) : CronJob :=
  { id := i, name := "job", enabled := true, schedule := .every 60000 0,
    payload := some (.systemEvent "hi"), createdAtMs := 0, updatedAtMs := 0,
    state := { nextRunAtMs := next } }

/-- A one-element store. -/
def S0 : CronStore := { jobs := [testJob "a" (some 0)] }

/-- A store whose due jobs are out of order and which holds a job with
`runningAtMs = 0`. -/
def SB : CronStore :=
  { jobs := [testJob "b" (some 200), testJob "a" (some 100),
      { testJob "r" (some 50) with state := { nextRunAtMs := some 50, runningAtMs := some 0 } }] }

/-- Scenario A of spec section 8: job X picked up at t = 60000 and still
marked running. -/
def jobX : CronJob :=
  { testJob "X" (some 60000) with
    state := { nextRunAtMs := some 60000, runningAtMs := some 60000 } }

/-- The store of Scenario A. -/
def SX : CronStore := { jobs := [jobX] }

/-- Completion report of Scenario A. -/
def RX : CronRunResult := { status := .ok, durationMs := 500 }

/-- A due one-shot job, with or without `deleteAfterRun`. -/
def oneShotJob (del : Bool) : CronJob :=
  { testJob "Y" (some 5000) with schedule := .at_ 5000, deleteAfterRun := del }

/-- Creation input that seeds `state.nextRunAtMs` on a disabled job. -/
def inpSeeded : CronJobCreate :=
  { name := "n"
    enabled := some false
    schedule := .every 60000 0
    payload := some (.systemEvent "x")
    state := { nextRunAtMs := some 5 } }

/-- Creation input lacking a payload. -/
def inpNoPayload : CronJobCreate :=
  { name := "n"
    enabled := some true
    schedule := .every 60000 0 }

/-- Patch setting only the name. -/
def pName : CronJobPatch := { name := some "n1" }

/-- Patch setting only the description. -/
def pDesc : CronJobPatch := { description := some "d2" }

/-! Claim theorems. -/

/-- Claim C1, counterexample: the source `getDueJobs` applies no sort (it
returns store order: "b" before "a" despite later `nextRunAtMs`) and its
truthiness test lets a job with `runningAtMs = 0` through, so it differs
from the spec-worded selector, which orders ascending and excludes any job
whose `runningAtMs` is set. -/
theorem getDueJobs_unsorted_cex :
    getDueJobs SB 300 ≠ dueJobsSpec SB 300 ∧
    (getDueJobs SB 300).map CronJob.id = ["b", "a", "r"] ∧
    (dueJobsSpec SB 300).map CronJob.id = ["a", "b"] := by
  refine ⟨by decide, by decide, by decide⟩

/-- Claim C1 (corrected): `getDueJobs` returns exactly the jobs satisfying
`enabled ∧ runningAtMs unset or zero ∧ nextRunAtMs set ∧ nextRunAtMs ≤
referenceTimeMs`, in the order they appear in the stored collection (no
sorting is applied). -/
theorem getDueJobs_exact_filter_in_store_order (s : CronStore) (ref : Nat) (j : CronJob) :
    (j ∈ getDueJobs s ref ↔
      j ∈ s.jobs ∧ j.enabled = true ∧ numTruthy j.state.runningAtMs = false ∧
        ∃ n, j.state.nextRunAtMs = some n ∧ n ≤ ref) ∧
    (getDueJobs s ref).Sublist s.jobs := by
  constructor
  · rw [getDueJobs, List.mem_filter]
    constructor
    · rintro ⟨hm, hp⟩
      refine ⟨hm, ?_⟩
      cases hen : j.enabled
      · rw [hen] at hp; simp at hp
      · cases hrun : numTruthy j.state.runningAtMs
        · cases hnext : j.state.nextRunAtMs with
          | none => rw [hen, hrun, hnext] at hp; simp at hp
          | some n =>
            rw [hen, hrun, hnext] at hp
            simp at hp
            exact ⟨rfl, rfl, n, rfl, hp⟩
        · rw [hen, hrun] at hp; simp at hp
    · rintro ⟨hm, hen, hrun, n, hnext, hle⟩
      exact ⟨hm, by simp [hen, hrun, hnext, hle]⟩
  · simp only [getDueJobs]
    exact List.filter_sublist _

/-- Claim C8, counterexample: `addJob` accepts a creation input with no
payload at all, reports success and persists the payload-less job — no
`ValidationError` is produced and the job is stored. -/
theorem addJob_missing_payload_cex :
    (okData (addJob { jobs := [] } inpNoPayload "id1" 0).snd).isSome = true ∧
    (okData (addJob { jobs := [] } inpNoPayload "id1" 0).snd).map (fun j => j.payload) =
      some none ∧
    (addJob { jobs := [] } inpNoPayload "id1" 0).fst.jobs.length = 1 := by
  refine ⟨by decide, by decide, by decide⟩

/-- Claim C8 (corrected): `create` performs no validation: every input is
persisted as given — including one whose payload is missing — and the
operation reports success with the new job; no `ValidationError` outcome
exists in the local operations. -/
theorem addJob_performs_no_validation (s : CronStore) (input : CronJobCreate)
    (newId : String) (now : Nat) :
    (okData (addJob s input newId now).snd).isSome = true ∧
    (addJob s input newId now).fst.jobs.length = s.jobs.length + 1 ∧
    (okData (addJob s input newId now).snd).map (fun j => j.payload) = some input.payload := by
  refine ⟨rfl, by simp [addJob], rfl⟩

/-- Claim C9, counterexample: the mutating operations are plain
load-modify-save functions with no lock. When a second update loads the
store before a first update's save lands and then saves last (the
interleaving a lock would forbid), the final store matches neither serial
order: the first update's write is lost. -/
theorem updateJob_lost_update_cex :
    (updateJob S0 "a" pDesc 5).fst ≠
      (updateJob (updateJob S0 "a" pName 5).fst "a" pDesc 5).fst ∧
    (updateJob S0 "a" pDesc 5).fst ≠
      (updateJob (updateJob S0 "a" pDesc 5).fst "a" pName 5).fst := by
  refine ⟨by decide, by decide⟩

/-- Claim C9 (corrected): the local mutators take no lock and can lose
concurrent updates; their only failure outcomes are the not-found error and
the modelled payload-patch `TypeError` — in particular no
`LockTimeoutError` exists, and `addJob` never fails at all. -/
theorem updateJob_failures_are_not_lock_errors (s : CronStore) (id : String)
    (patch : CronJobPatch) (now : Nat) (input : CronJobCreate) (newId : String) :
    ((updateJob s id patch now).snd = .error ("Job not found: " ++ id) ∨
      (updateJob s id patch now).snd = .error payloadTypeErrorMsg ∨
      (okData (updateJob s id patch now).snd).isSome = true) ∧
    (okData (addJob s input newId now).snd).isSome = true := by
  constructor
  · cases hf : s.jobs.find? (fun j => j.id == id) with
    | none => left; simp [updateJob, hf]
    | some found =>
      cases hpp : patch.payload with
      | none => right; right; simp [updateJob, hf, hpp, finishUpdate, okData]
      | some pp =>
        cases hex : applyPayloadPatchEx pp (applySimpleFields found patch).payload with
        | none => right; left; simp [updateJob, hf, hpp, hex]
        | some p2 => right; right; simp [updateJob, hf, hpp, hex, finishUpdate, okData]
  · rfl

/-- Claim C10 (confirmed): caller-supplied `state` fields are copied
verbatim into the new job by the `...input.state` spread, and a supplied
`nextRunAtMs` overrides the Evaluator-computed value, so a caller can
create a job whose stored `nextRunAtMs` the Evaluator never produced. -/
theorem addJob_state_spread_overrides (s : CronStore) (input : CronJobCreate)
    (newId : String) (now : Nat) (v : Nat)
    (hv : input.state.nextRunAtMs = some v) :
    (okData (addJob s input newId now).snd).map
      (fun j => (j.state.nextRunAtMs, j.state.runningAtMs, j.state.lastRunAtMs,
        j.state.lastStatus, j.state.lastError, j.state.lastDurationMs)) =
      some (some v, input.state.runningAtMs, input.state.lastRunAtMs,
        input.state.lastStatus, input.state.lastError, input.state.lastDurationMs) ∧
    (addJob s input newId now).fst.jobs.length = s.jobs.length + 1 := by
  refine ⟨by simp [addJob, okData, hv, Option.orElse], by simp [addJob]⟩

/-- Witness for C10: creating a disabled job seeded with `nextRunAtMs = 5`
stores 5 — a value the Evaluator would never return for that schedule and
time. -/
theorem addJob_state_spread_overrides_witness :
    (okData (addJob { jobs := [] } inpSeeded "id1" 0).snd).map
      (fun j => (j.state.nextRunAtMs, j.state.runningAtMs, j.state.lastRunAtMs,
        j.state.lastStatus, j.state.lastError, j.state.lastDurationMs)) =
      some (some 5, none, none, none, none, none) ∧
    computeNextRunAtMs (.every 60000 0) 0 ≠ some 5 :=
  ⟨((addJob_state_spread_overrides { jobs := [] } inpSeeded "id1" 0 5 (by decide)).1).trans
      (by rfl),
    by decide⟩

/-! Invariant preservation lemmas for claim C5. -/

lemma jobInvB_recompute (patch : CronJobPatch) (now : Nat) (j3 : CronJob) :
    jobInvB (recompute patch now j3) = true := by
  unfold recompute
  by_cases h1 : (j3.enabled && (patch.schedule.isSome || patch.enabled.isSome)) = true
  · rw [if_pos h1]
    have he : j3.enabled = true := (Bool.and_eq_true _ _).mp h1 |>.1
    simp [jobInvB, he]
  · rw [if_neg h1]
    by_cases h2 : (!j3.enabled) = true
    · rw [if_pos h2]; simp [jobInvB]
    · rw [if_neg h2]
      have he : j3.enabled = true := by revert h2; cases j3.enabled <;> simp
      simp [jobInvB, he]

lemma jobInvB_updatedJob (patch : CronJobPatch) (now : Nat) (j1 : CronJob) :
    jobInvB (updatedJob patch now j1) = true :=
  jobInvB_recompute patch now _

lemma storeInvB_iff {s : CronStore} :
    storeInvB s = true ↔ ∀ j ∈ s.jobs, jobInvB j = true := by
  simp [storeInvB, List.all_eq_true]

lemma storeInvB_finishUpdate (s : CronStore) (id : String) (patch : CronJobPatch)
    (now : Nat) (j1 : CronJob) (h : storeInvB s = true) :
    storeInvB (finishUpdate s id patch now j1).fst = true := by
  rw [storeInvB_iff] at h ⊢
  intro x hx
  simp only [finishUpdate] at hx
  rcases mem_of_mem_setFirst hx with hx | hx
  · exact hx ▸ jobInvB_updatedJob patch now j1
  · exact h x hx

lemma storeInvB_updateJob (s : CronStore) (id : String) (patch : CronJobPatch)
    (now : Nat) (h : storeInvB s = true) :
    storeInvB (updateJob s id patch now).fst = true := by
  cases hf : s.jobs.find? (fun j => j.id == id) with
  | none => simpa [updateJob, hf] using h
  | some found =>
    cases hpp : patch.payload with
    | none =>
      simp only [updateJob, hf, hpp]
      exact storeInvB_finishUpdate s id patch now _ h
    | some pp =>
      cases hex : applyPayloadPatchEx pp (applySimpleFields found patch).payload with
      | none => simpa [updateJob, hf, hpp, hex] using h
      | some p2 =>
        simp only [updateJob, hf, hpp, hex]
        exact storeInvB_finishUpdate s id patch now _ h

lemma storeInvB_removeJob (s : CronStore) (id : String) (h : storeInvB s = true) :
    storeInvB (removeJob s id).fst = true := by
  rw [storeInvB_iff] at h ⊢
  intro x hx
  simp only [removeJob] at hx
  exact h x (List.mem_of_mem_filter hx)

lemma storeInvB_markJobCompleted (s : CronStore) (id : String) (res : CronRunResult)
    (now : Nat) (h : storeInvB s = true) :
    storeInvB (markJobCompleted s id res now).fst = true := by
  cases hf : s.jobs.find? (fun j => j.id == id) with
  | none => simpa [markJobCompleted, hf] using h
  | some found =>
    have hfm : found ∈ s.jobs := List.mem_of_find?_eq_some hf
    have hfi : jobInvB found = true := storeInvB_iff.mp h found hfm
    simp only [markJobCompleted, hf]
    split
    · split
      · rw [storeInvB_iff] at h ⊢
        intro x hx
        exact h x (List.mem_of_mem_filter hx)
      · rw [storeInvB_iff] at h ⊢
        intro x hx
        rcases mem_of_mem_setFirst hx with hx | hx
        · subst hx; simp [jobInvB]
        · exact h x hx
    · rw [storeInvB_iff] at h ⊢
      intro x hx
      rcases mem_of_mem_setFirst hx with hx | hx
      · subst hx
        by_cases he : found.enabled = true
        · simp [jobInvB, he]
        · have he' : found.enabled = false := by revert he; cases found.enabled <;> simp
          have hnone : (found.state.nextRunAtMs == none) = true := by
            simpa [jobInvB, he'] using hfi
          simp [jobInvB, he', hnone]
      · exact h x hx

lemma storeInvB_addJob (s : CronStore) (input : CronJobCreate) (newId : String)
    (now : Nat) (b : Bool) (hb : input.enabled = some b)
    (hn : input.state.nextRunAtMs = none) (h : storeInvB s = true) :
    storeInvB (addJob s input newId now).fst = true := by
  rw [storeInvB_iff] at h ⊢
  intro x hx
  simp only [addJob, List.mem_append, List.mem_singleton] at hx
  rcases hx with hx | hx
  · exact h x hx
  · subst hx
    cases b with
    | true => simp [jobInvB, hb]
    | false => simp [jobInvB, hb, hn, Option.orElse]

/-- Claim C5, counterexample: `create` itself breaks the invariant — a
disabled creation input whose `state` seeds `nextRunAtMs = 5` is stored as
a disabled job with `nextRunAtMs` set, because the `...input.state` spread
wins over the guarded computation. -/
theorem addJob_seeded_disabled_cex :
    storeInvB (addJob { jobs := [] } inpSeeded "id1" 0).fst = false ∧
    (okData (addJob { jobs := [] } inpSeeded "id1" 0).snd).map
      (fun j => (j.enabled, j.state.nextRunAtMs)) = some (false, some 5) := by
  refine ⟨by decide, by decide⟩

/-- Claim C5 (corrected): update, remove, markRunning and markCompleted all
preserve the invariant that a disabled job has `nextRunAtMs` unset; create
preserves it only when the caller supplies `enabled` explicitly and the
input `state` does not seed `nextRunAtMs` — the `...input.state` spread
can store `nextRunAtMs` on a disabled job. -/
theorem invariant_preserved_except_seeded_create :
    (∀ s id patch now, storeInvB s = true → storeInvB (updateJob s id patch now).fst = true) ∧
    (∀ s id, storeInvB s = true → storeInvB (removeJob s id).fst = true) ∧
    (∀ s id t, storeInvB s = true → storeInvB (markJobRunning s id t).fst = true) ∧
    (∀ s id res now, storeInvB s = true → storeInvB (markJobCompleted s id res now).fst = true) ∧
    (∀ s input newId now b, input.enabled = some b → input.state.nextRunAtMs = none →
      storeInvB s = true → storeInvB (addJob s input newId now).fst = true) :=
  ⟨storeInvB_updateJob, storeInvB_removeJob,
   fun s id t h => storeInvB_updateJob s id _ t h,
   storeInvB_markJobCompleted, storeInvB_addJob⟩

/-- Witness for C5: the preserved invariant evaluated on concrete runs of
each operation over an invariant-satisfying store. -/
theorem invariant_preserved_except_seeded_create_witness :
    storeInvB S0 = true ∧
    storeInvB (updateJob S0 "a" pName 5).fst = true ∧
    storeInvB (removeJob S0 "a").fst = true ∧
    storeInvB (markJobRunning S0 "a" 5).fst = true ∧
    storeInvB (markJobCompleted S0 "a" RX 5).fst = true ∧
    storeInvB (addJob S0 inpNoPayload "id1" 0).fst = true :=
  ⟨by decide,
   invariant_preserved_except_seeded_create.1 S0 "a" pName 5 (by decide),
   invariant_preserved_except_seeded_create.2.1 S0 "a" (by decide),
   invariant_preserved_except_seeded_create.2.2.1 S0 "a" 5 (by decide),
   invariant_preserved_except_seeded_create.2.2.2.1 S0 "a" RX 5 (by decide),
   invariant_preserved_except_seeded_create.2.2.2.2 S0 inpNoPayload "id1" 0 true rfl rfl
     (by decide)⟩

/-! Reduction and frame lemmas for `updateJob`. -/

lemma updateJob_eq_finish (s : CronStore) (id : String) (patch : CronJobPatch)
    (now : Nat) (found : CronJob)
    (hf : s.jobs.find? (fun j => j.id == id) = some found)
    (hpp : patch.payload = none) :
    updateJob s id patch now =
      finishUpdate s id patch now (applySimpleFields found patch) := by
  simp only [updateJob, hf, hpp]

lemma recompute_id (patch : CronJobPatch) (now : Nat) (j3 : CronJob) :
    (recompute patch now j3).id = j3.id := by
  unfold recompute
  split
  · rfl
  · split <;> rfl

lemma recompute_schedule (patch : CronJobPatch) (now : Nat) (j3 : CronJob) :
    (recompute patch now j3).schedule = j3.schedule := by
  unfold recompute
  split
  · rfl
  · split <;> rfl

lemma updatedJob_id (patch : CronJobPatch) (now : Nat) (j1 : CronJob) :
    (updatedJob patch now j1).id = j1.id := by
  unfold updatedJob
  rw [recompute_id]
  cases patch.state <;> rfl

lemma updatedJob_schedule (patch : CronJobPatch) (now : Nat) (j1 : CronJob) :
    (updatedJob patch now j1).schedule = j1.schedule := by
  unfold updatedJob
  rw [recompute_schedule]
  cases patch.state <;> rfl

/-- Claim C7 (confirmed): `update(id, {enabled:false})` clears
`nextRunAtMs` and leaves `schedule` unchanged; a subsequent
`update(id, {enabled:true})` sets `nextRunAtMs` to the Evaluator's result
at the time of that second call. -/
theorem updateJob_disable_then_enable (s : CronStore) (id : String) (n1 n2 : Nat)
    (found : CronJob)
    (hf : s.jobs.find? (fun j => j.id == id) = some found) :
    (okData (updateJob s id { enabled := some false } n1).snd).map
      (fun j => (j.state.nextRunAtMs, j.schedule)) = some (none, found.schedule) ∧
    (okData (updateJob (updateJob s id { enabled := some false } n1).fst id
        { enabled := some true } n2).snd).map (fun j => j.state.nextRunAtMs) =
      some (computeNextRunAtMs found.schedule n2) := by
  have h1 := updateJob_eq_finish s id { enabled := some false } n1 found hf rfl
  have hsched : (updatedJob { enabled := some false } n1
      (applySimpleFields found { enabled := some false })).schedule = found.schedule := by
    rw [updatedJob_schedule]; rfl
  have hid : (updatedJob { enabled := some false } n1
      (applySimpleFields found { enabled := some false })).id = found.id := by
    rw [updatedJob_id]; rfl
  have hnext1 : (updatedJob { enabled := some false } n1
      (applySimpleFields found { enabled := some false })).state.nextRunAtMs = none := by
    simp [updatedJob, recompute, applySimpleFields, applyStatePatch]
  constructor
  · rw [h1]
    simp [finishUpdate, okData, hsched, hnext1]
  · have hpj : ((fun j => j.id == id) (updatedJob { enabled := some false } n1
        (applySimpleFields found { enabled := some false }))) = true := by
      simpa [hid] using List.find?_some hf
    have hf2 : ((finishUpdate s id { enabled := some false } n1
        (applySimpleFields found { enabled := some false })).fst).jobs.find?
          (fun j => j.id == id) =
        some (updatedJob { enabled := some false } n1
          (applySimpleFields found { enabled := some false })) :=
      @find?_setFirst_self CronJob (fun j => j.id == id) _ _ hpj _ hf
    rw [h1]
    have h2 := updateJob_eq_finish _ id { enabled := some true } n2 _ hf2 rfl
    rw [h2]
    have hsched2 : (updatedJob { enabled := some true } n2
        (applySimpleFields (updatedJob { enabled := some false } n1
          (applySimpleFields found { enabled := some false }))
          { enabled := some true })).state.nextRunAtMs =
        computeNextRunAtMs found.schedule n2 := by
      simp [updatedJob, recompute, applySimpleFields, applyStatePatch, computeNextRun, hsched]
    simp [finishUpdate, okData, hsched2]

/-- Witness for C7: disabling then re-enabling the test job at t = 100 and
t = 200 clears `nextRunAtMs`, keeps the schedule, and recomputes 60000 at
the second call time. -/
theorem updateJob_disable_then_enable_witness :
    S0.jobs.find? (fun j => j.id == "a") = some (testJob "a" (some 0)) ∧
    (okData (updateJob S0 "a" { enabled := some false } 100).snd).map
      (fun j => (j.state.nextRunAtMs, j.schedule)) =
      some (none, CronSchedule.every 60000 0) ∧
    (okData (updateJob (updateJob S0 "a" { enabled := some false } 100).fst "a"
        { enabled := some true } 200).snd).map (fun j => j.state.nextRunAtMs) =
      some (some 60000) :=
  ⟨by decide,
   ((updateJob_disable_then_enable S0 "a" 100 200 (testJob "a" (some 0)) (by decide)).1).trans
     (by rfl),
   ((updateJob_disable_then_enable S0 "a" 100 200 (testJob "a" (some 0)) (by decide)).2).trans
     (by rfl)⟩

lemma recompute_runningAtMs (patch : CronJobPatch) (now : Nat) (j3 : CronJob) :
    (recompute patch now j3).state.runningAtMs = j3.state.runningAtMs := by
  unfold recompute
  split
  · rfl
  · split <;> rfl

/-- Claim C2, counterexample: `markJobRunning` invoked when `Date.now()` is
0 stores `runningAtMs = 0`, which the truthiness test of `getDueJobs`
treats as unset — the job it just marked running is still reported due at
the same reference time. -/
theorem markJobRunning_at_zero_cex :
    (okData (markJobRunning S0 "a" 0).snd).isSome = true ∧
    (getDueJobs (markJobRunning S0 "a" 0).fst 0).map CronJob.id = ["a"] := by
  refine ⟨by decide, by decide⟩

/-- Claim C2 (corrected): in a store with duplicate-free ids, after
`markJobRunning` succeeds at a nonzero time, `getDueJobs` at the same or
any later reference time excludes that id, and a subsequent
`markJobCompleted` for the id clears `runningAtMs` again. -/
theorem markJobRunning_excludes_until_completed (s : CronStore) (id : String) (t : Nat)
    (hnd : (s.jobs.map CronJob.id).Nodup) (ht : t ≠ 0)
    (hok : (okData (markJobRunning s id t).snd).isSome = true) :
    (∀ t2, t ≤ t2 →
      ((getDueJobs (markJobRunning s id t).fst t2).all (fun j => j.id != id)) = true) ∧
    (∀ res now2,
      (okData (markJobCompleted (markJobRunning s id t).fst id res now2).snd).map
        (fun j => j.state.runningAtMs) = some none) := by
  cases hf : s.jobs.find? (fun j => j.id == id) with
  | none => simp [markJobRunning, updateJob, hf, okData] at hok
  | some found =>
    have h1 : markJobRunning s id t =
        finishUpdate s id { state := some { runningAtMs := some t } } t
          (applySimpleFields found { state := some { runningAtMs := some t } }) := by
      rw [markJobRunning]
      exact updateJob_eq_finish s id _ t found hf rfl
    have hrun : (updatedJob { state := some { runningAtMs := some t } } t
        (applySimpleFields found { state := some { runningAtMs := some t } })).state.runningAtMs =
        some t := by
      unfold updatedJob
      rw [recompute_runningAtMs]
      rfl
    have hfid := List.find?_some hf
    have hu_id : (updatedJob { state := some { runningAtMs := some t } } t
        (applySimpleFields found { state := some { runningAtMs := some t } })).id = id := by
      rw [updatedJob_id]
      exact eq_of_beq hfid
    constructor
    · intro t2 _
      rw [List.all_eq_true]
      intro x hx
      rw [h1] at hx
      simp only [getDueJobs, List.mem_filter, finishUpdate] at hx
      by_cases hxid : x.id = id
      · exfalso
        have hxu := setFirst_id_unique hnd hx.1 hxid hu_id
        subst hxu
        have hpred := hx.2
        rw [hrun] at hpred
        have htb : (t != 0) = true := by simpa using ht
        cases hen : (updatedJob { state := some { runningAtMs := some t } } t
            (applySimpleFields found { state := some { runningAtMs := some t } })).enabled <;>
          rw [hen] at hpred <;> simp [numTruthy, htb] at hpred
      · simp [hxid]
    · intro res now2
      have hpu : ((fun j => j.id == id) (updatedJob { state := some { runningAtMs := some t } } t
          (applySimpleFields found { state := some { runningAtMs := some t } }))) = true := by
        simp [hu_id]
      have hf2 : ((finishUpdate s id { state := some { runningAtMs := some t } } t
          (applySimpleFields found { state := some { runningAtMs := some t } })).fst).jobs.find?
            (fun j => j.id == id) =
          some (updatedJob { state := some { runningAtMs := some t } } t
            (applySimpleFields found { state := some { runningAtMs := some t } })) :=
        @find?_setFirst_self CronJob (fun j => j.id == id) _ _ hpu _ hf
      rw [h1]
      simp only [markJobCompleted, hf2]
      split
      · split <;> simp [okData]
      · split <;> simp [okData]

/-- Witness for C2: marking the test job running at t = 5 succeeds, the job
is no longer due at t = 7, and completing it at t = 9 clears
`runningAtMs`. -/
theorem markJobRunning_excludes_until_completed_witness :
    (okData (markJobRunning S0 "a" 5).snd).isSome = true ∧
    ((getDueJobs (markJobRunning S0 "a" 5).fst 7).all (fun j => j.id != "a")) = true ∧
    (okData (markJobCompleted (markJobRunning S0 "a" 5).fst "a" RX 9).snd).map
      (fun j => j.state.runningAtMs) = some none :=
  ⟨by decide,
   (markJobRunning_excludes_until_completed S0 "a" 5 (by decide) (by decide) (by decide)).1 7
     (by decide),
   (markJobRunning_excludes_until_completed S0 "a" 5 (by decide) (by decide) (by decide)).2 RX 9⟩

/-- Claim C4, counterexample: completing job X (schedule
`every{intervalMs:60000, anchorMs:0}`) at t = 60500 stores
`nextRunAtMs = 120000` — the smallest grid point `anchorMs + k*intervalMs`
strictly after 60500 under the spec-worded Evaluator — not the 120500 the
claim states. -/
theorem markJobCompleted_everyAnchor_value_cex :
    (okData (markJobCompleted SX "X" RX 60500).snd).map (fun j => j.state.nextRunAtMs) =
      some (some 120000) ∧
    (okData (markJobCompleted SX "X" RX 60500).snd).map (fun j => j.state.nextRunAtMs) ≠
      some (some 120500) := by
  refine ⟨by decide, by decide⟩

/-- Claim C4 (corrected): for a job that is not a successfully-completed
one-shot and is enabled, `markJobCompleted` sets `nextRunAtMs` to the
Evaluator's result at the completion time (the single `now` captured on
entry); in the concrete `every{intervalMs:60000, anchorMs:0}` scenario
completed at t = 60500 the result is 120000, not 120500. -/
theorem markJobCompleted_recomputes_at_completion (s : CronStore) (id : String)
    (res : CronRunResult) (now : Nat) (found : CronJob)
    (hf : s.jobs.find? (fun j => j.id == id) = some found)
    (hnot : isOneShot found.schedule = false ∨ res.status ≠ .ok)
    (hen : found.enabled = true) :
    (okData (markJobCompleted s id res now).snd).map (fun j => j.state.nextRunAtMs) =
      some (computeNextRunAtMs found.schedule now) := by
  simp only [markJobCompleted, hf]
  split
  · next hcond =>
    exfalso
    rcases hnot with h | h
    · simp [h] at hcond
    · have hsb : (res.status == RunStatus.ok) = false := by
        cases hs : res.status <;> simp_all
      simp [hsb] at hcond
  · simp [okData, hen, computeNextRun]

/-- Witness for C4: Scenario A evaluated concretely — completion at 60500
yields `nextRunAtMs = 120000`. -/
theorem markJobCompleted_recomputes_at_completion_witness :
    SX.jobs.find? (fun j => j.id == "X") = some jobX ∧
    (okData (markJobCompleted SX "X" RX 60500).snd).map (fun j => j.state.nextRunAtMs) =
      some (some 120000) :=
  ⟨by decide,
   (markJobCompleted_recomputes_at_completion SX "X" RX 60500 jobX (by decide)
       (Or.inl (by decide)) (by decide)).trans (by rfl)⟩

/-- Claim C3 (confirmed): after `markJobCompleted` with status `ok` on a
one-shot job in a store with duplicate-free ids: with `deleteAfterRun` the
job is gone even from `list(includeDisabled = true)`; without it, a job
with that id is still listed and every listed job with that id is disabled
with `nextRunAtMs` unset. -/
theorem markJobCompleted_oneShot_ok (s : CronStore) (id : String) (res : CronRunResult)
    (now : Nat) (found : CronJob) (a : Nat)
    (hnd : (s.jobs.map CronJob.id).Nodup)
    (hf : s.jobs.find? (fun j => j.id == id) = some found)
    (hat : found.schedule = .at_ a)
    (hok : res.status = .ok) :
    (found.deleteAfterRun = true →
      ((listJobs (markJobCompleted s id res now).fst true).all (fun j => j.id != id)) = true) ∧
    (found.deleteAfterRun = false →
      ((listJobs (markJobCompleted s id res now).fst true).any (fun j => j.id == id)) = true ∧
      ((listJobs (markJobCompleted s id res now).fst true).all
        (fun j => j.id != id || (!j.enabled && j.state.nextRunAtMs == none))) = true) := by
  have hfid := List.find?_some hf
  simp only [markJobCompleted, hf, hat, isOneShot, hok, beq_self_eq_true, Bool.and_self,
    if_true]
  constructor
  · intro hdel
    simp only [hdel, if_true, listJobs, ite_true]
    rw [List.all_eq_true]
    intro x hx
    rw [mem_sortJobs] at hx
    exact (List.mem_filter.mp hx).2
  · intro hdel
    simp only [hdel, Bool.false_eq_true, if_false, listJobs, ite_true]
    constructor
    · rw [List.any_eq_true]
      refine ⟨_, mem_sortJobs.mpr (setFirst_mem_self hf), ?_⟩
      exact hfid
    · rw [List.all_eq_true]
      intro x hx
      rw [mem_sortJobs] at hx
      by_cases hxid : x.id = id
      · have hxu := setFirst_id_unique hnd hx hxid (eq_of_beq hfid)
        subst hxu
        simp
      · simp [hxid]

/-- Witness for C3: the due one-shot is gone after an ok completion with
`deleteAfterRun`, and survives disabled with `nextRunAtMs` unset
without it. -/
theorem markJobCompleted_oneShot_ok_witness :
    ((CronStore.mk [oneShotJob true]).jobs.find? (fun j => j.id == "Y") =
        some (oneShotJob true)) ∧
    ((listJobs (markJobCompleted (CronStore.mk [oneShotJob true]) "Y"
        { status := .ok, durationMs := 10 } 5000).fst true).all (fun j => j.id != "Y")) = true ∧
    ((listJobs (markJobCompleted (CronStore.mk [oneShotJob false]) "Y"
        { status := .ok, durationMs := 10 } 5000).fst true).any (fun j => j.id == "Y")) = true ∧
    ((listJobs (markJobCompleted (CronStore.mk [oneShotJob false]) "Y"
        { status := .ok, durationMs := 10 } 5000).fst true).all
      (fun j => j.id != "Y" || (!j.enabled && j.state.nextRunAtMs == none))) = true :=
  ⟨by decide,
   (markJobCompleted_oneShot_ok (CronStore.mk [oneShotJob true]) "Y"
       { status := .ok, durationMs := 10 } 5000 (oneShotJob true) 5000 (by decide) (by decide)
       (by decide) (by decide)).1 (by decide),
   ((markJobCompleted_oneShot_ok (CronStore.mk [oneShotJob false]) "Y"
       { status := .ok, durationMs := 10 } 5000 (oneShotJob false) 5000 (by decide) (by decide)
       (by decide) (by decide)).2 (by decide)).1,
   ((markJobCompleted_oneShot_ok (CronStore.mk [oneShotJob false]) "Y"
       { status := .ok, durationMs := 10 } 5000 (oneShotJob false) 5000 (by decide) (by decide)
       (by decide) (by decide)).2 (by decide)).2⟩

lemma recompute_payload (patch : CronJobPatch) (now : Nat) (j3 : CronJob) :
    (recompute patch now j3).payload = j3.payload := by
  unfold recompute
  split
  · rfl
  · split <;> rfl

lemma updatedJob_payload (patch : CronJobPatch) (now : Nat) (j1 : CronJob) :
    (updatedJob patch now j1).payload = j1.payload := by
  unfold updatedJob
  rw [recompute_payload]
  cases patch.state <;> rfl

/-- Claim C6 (confirmed): payload patches applied by `updateJob` are
variant-aware — the stored job's payload becomes `applyPayloadPatch` of the
patch over the existing payload; a patch whose kind differs from the
existing kind produces the payload built from the patch alone with
defaults, and a patch of the same kind with no sub-fields keeps the
existing payload unchanged (absent sub-fields carry over). -/
theorem updateJob_payload_variant_aware :
    (∀ (s : CronStore) (id : String) (patch : CronJobPatch) (now : Nat) (found : CronJob)
        (pp : CronPayloadPatch) (p0 : CronPayload),
      s.jobs.find? (fun j => j.id == id) = some found →
      patch.payload = some pp →
      found.payload = some p0 →
      (okData (updateJob s id patch now).snd).map (fun j => j.payload) =
        some (some (applyPayloadPatch pp p0))) ∧
    (∀ (pp : CronPayloadPatch) (p : CronPayload),
      payloadKind p ≠ patchKind pp → applyPayloadPatch pp p = payloadOfPatch pp) ∧
    (∀ t, applyPayloadPatch (.systemEvent none) (.systemEvent t) = .systemEvent t) ∧
    (∀ m mo th ti de ch tv be,
      applyPayloadPatch (.agentTurn none none none none none none none none)
        (.agentTurn m mo th ti de ch tv be) = .agentTurn m mo th ti de ch tv be) := by
  refine ⟨?_, ?_, fun t => rfl, fun m mo th ti de ch tv be => rfl⟩
  · intro s id patch now found pp p0 hf hpp hpay
    have hsp : (applySimpleFields found patch).payload = some p0 := hpay
    simp only [updateJob, hf, hpp, hsp, applyPayloadPatchEx]
    simp [finishUpdate, okData, updatedJob_payload]
  · intro pp p h
    cases pp <;> cases p <;> first | rfl | exact absurd rfl h

/-- Witness for C6: patching the system-event job with an agent-turn
payload replaces the payload wholesale from the patch. -/
theorem updateJob_payload_variant_aware_witness :
    (okData (updateJob S0 "a"
        { payload := some (.agentTurn (some "m") none none none none none none none) }
        3).snd).map (fun j => j.payload) =
      some (some (applyPayloadPatch
        (.agentTurn (some "m") none none none none none none none) (.systemEvent "hi"))) ∧
    applyPayloadPatch (.agentTurn (some "m") none none none none none none none)
        (.systemEvent "hi") =
      payloadOfPatch (.agentTurn (some "m") none none none none none none none) :=
  ⟨updateJob_payload_variant_aware.1 S0 "a"
     { payload := some (.agentTurn (some "m") none none none none none none none) }
     3 (testJob "a" (some 0)) (.agentTurn (some "m") none none none none none none none)
     (.systemEvent "hi") (by decide) rfl rfl,
   updateJob_payload_variant_aware.2.1
     (.agentTurn (some "m") none none none none none none none) (.systemEvent "hi")
     (by decide)⟩

end Clawdbot
